import Mathlib

/-!
Verification of the smartfi financial computation engine.

This file shallowly embeds the engine code of the repository — the currency
converter (`convertValue`), the valuation aggregator (`Dashboard.metrics`),
the ledger reconstructor (`Dashboard.chartData`), the performance analytics
(`PerformancePage.stats`), the group-deletion state update (`deleteGroup`) and
the refresh-time transaction filter (`App.refreshData`) — and proves or
refutes the specification's claims about them.

Modelling conventions:
- JS numbers are modelled as exact rationals (`ℚ`); ISO date strings are
  modelled by their epoch-millisecond value (`ℤ`), which is the form the code
  itself reduces every date to (`new Date(s).getTime()`) before comparing.
- The one place where exact rationals and IEEE doubles genuinely disagree on
  the claims under study — division by a zero exchange rate — is modelled
  separately with `JsNum`, an inductive that carries the IEEE special values.
- JS truthiness tests on numbers (`tx.exchangeRateUsed ? _ : _`,
  `if (acc.creditLimit)`, `years || 1`) are embedded as `= 0` tests, the
  exact semantics for non-NaN numbers (`ℚ` has no NaN).
-/

namespace Smartfi

/-- Currency enum from types.ts. -/
inductive Currency where
  | COP : Currency
  | USD : Currency
deriving DecidableEq

/-- AccountType enum from types.ts. -/
inductive AccountType where
  | DEBIT : AccountType
  | CREDIT : AccountType
deriving DecidableEq

/-- Transaction record from types.ts; `date` is the epoch-millisecond value of
the ISO string. -/
structure Transaction where
  id : String
  userId : String
  accountId : String
  amount : ℚ
  newBalance : ℚ
  date : ℤ
  exchangeRateUsed : ℚ
deriving DecidableEq

/-- Account record from types.ts, extended with the `category` and `sortOrder`
fields that the application code reads and writes on accounts. -/
structure Account where
  id : String
  userId : String
  groupId : Option String
  name : String
  description : Option String
  type : AccountType
  currency : Currency
  balance : ℚ
  creditLimit : Option ℚ
  initialBalance : ℚ
  createdAt : ℤ
  category : Option String
  sortOrder : ℤ
deriving DecidableEq

/-- Group record from types.ts (with the `sortOrder` field the code uses). -/
structure Group where
  id : String
  userId : String
  name : String
  sortOrder : ℤ
deriving DecidableEq

/-- Embeds `convertValue` (src/unnamed/part_001:1504-1507) over exact
rationals, with the rate passed explicitly (the source reads it from
`data.settings.usdToCopRate`). Note Lean's rational division returns 0 at a
zero rate while JS doubles give ±Infinity/NaN; every use of this definition in
the claims below converts INTO COP, a path on which no division occurs, so the
divergence is irrelevant there. The zero-rate edge itself is analysed with the
IEEE-faithful `convertValueJs` below. -/
def convertValue (rate : ℚ) (val : ℚ) (src dst : Currency) : ℚ :=
  if src = dst then val
  else if src = Currency.USD then val * rate
  else val / rate

/-- A JavaScript IEEE-754 double, as far as the finiteness questions of this
file need: an exact finite value, the two infinities, or NaN. Rounding of
finite values is not modelled (all claim-relevant operations are exact). -/
inductive JsNum where
  | num : ℚ → JsNum
  | posInf : JsNum
  | negInf : JsNum
  | nan : JsNum
deriving DecidableEq

/-- Finiteness test for a modelled JS number. -/
def JsNum.isFinite : JsNum → Bool
  | JsNum.num _ => true
  | JsNum.posInf => false
  | JsNum.negInf => false
  | JsNum.nan => false

/-- IEEE-754 division of two finite doubles, by value (rounding not modelled;
the distinction between +0 and -0 divisors is not needed here because the
divisor is the stored exchange rate, a plain numeric setting): a nonzero value
divided by zero gives a signed infinity, zero divided by zero gives NaN, and
no exception is ever raised. -/
def jsDiv (a b : ℚ) : JsNum :=
  if b = 0 then
    if a = 0 then JsNum.nan
    else if 0 < a then JsNum.posInf
    else JsNum.negInf
  else JsNum.num (a / b)

/-- Embeds `convertValue` (src/unnamed/part_001:1504-1507) with JS double
semantics for the division branch: `val / rate` on the COP source path. The
identity and multiplication branches are exact for finite operands. -/
def convertValueJs (rate : ℚ) (val : ℚ) (src dst : Currency) : JsNum :=
  if src = dst then JsNum.num val
  else if src = Currency.USD then JsNum.num (val * rate)
  else jsDiv val rate

/-- Result record of `Dashboard.metrics` (src/unnamed/part_001:511). -/
structure Metrics where
  totalAssets : ℚ
  totalLiabilities : ℚ
  netWorth : ℚ
  liquidity : ℚ
  buyingPower : ℚ
  creditLimitTotal : ℚ
deriving DecidableEq

/-- One step of the `data.accounts.forEach` loop of `Dashboard.metrics`
(src/unnamed/part_001:498-509). The state is the accumulator quadruple
(totalAssets, totalLiabilities, liquidity, creditLimitTotal). The
`if (acc.creditLimit)` truthiness guard skips both an absent and a zero
credit limit. -/
def metricsAcc (rate : ℚ) (st : ℚ × ℚ × ℚ × ℚ) (acc : Account) : ℚ × ℚ × ℚ × ℚ :=
  let valInCop := convertValue rate acc.balance acc.currency Currency.COP
  if acc.type = AccountType.CREDIT then
    match acc.creditLimit with
    | some cl =>
        if cl = 0 then (st.1, st.2.1 + valInCop, st.2.2.1, st.2.2.2)
        else (st.1, st.2.1 + valInCop, st.2.2.1,
              st.2.2.2 + convertValue rate cl acc.currency Currency.COP)
    | none => (st.1, st.2.1 + valInCop, st.2.2.1, st.2.2.2)
  else
    (st.1 + valInCop, st.2.1, st.2.2.1 + valInCop, st.2.2.2)

/-- Embeds `Dashboard.metrics` (src/unnamed/part_001:492-512): fold the
accumulator loop over the account list and assemble the returned object. -/
def metrics (rate : ℚ) (accounts : List Account) : Metrics :=
  let s := accounts.foldl (metricsAcc rate) (0, 0, 0, 0)
  { totalAssets := s.1
    totalLiabilities := s.2.1
    netWorth := s.1 - s.2.1
    liquidity := s.2.2.1
    buyingPower := s.2.2.1 + (s.2.2.2 - s.2.1)
    creditLimitTotal := s.2.2.2 }

/-- Converted balance of one account, as the metrics loop computes it. -/
def convBal (rate : ℚ) (acc : Account) : ℚ :=
  convertValue rate acc.balance acc.currency Currency.COP

/-- Contribution of one account to `creditLimitTotal`: its converted credit
limit if it is a CREDIT account with a truthy (present, nonzero) limit. -/
def limitContrib (rate : ℚ) (acc : Account) : ℚ :=
  if acc.type = AccountType.CREDIT then
    match acc.creditLimit with
    | some cl => if cl = 0 then 0 else convertValue rate cl acc.currency Currency.COP
    | none => 0
  else 0

/-- Sum of converted balances over the non-CREDIT accounts of a list. -/
def assetsSum (rate : ℚ) (l : List Account) : ℚ :=
  ((l.filter (fun a => decide (¬ a.type = AccountType.CREDIT))).map (convBal rate)).sum

/-- Sum of converted balances over the CREDIT accounts of a list. -/
def liabSum (rate : ℚ) (l : List Account) : ℚ :=
  ((l.filter (fun a => decide (a.type = AccountType.CREDIT))).map (convBal rate)).sum

/-- Sum of credit-limit contributions over a list of accounts. -/
def limitSum (rate : ℚ) (l : List Account) : ℚ :=
  (l.map (limitContrib rate)).sum

/-- Unfolding of `assetsSum` over a cons cell. -/
theorem assetsSum_cons (rate : ℚ) (acc : Account) (tl : List Account) :
    assetsSum rate (acc :: tl) =
      (if acc.type = AccountType.CREDIT then 0 else convBal rate acc) + assetsSum rate tl := by
  by_cases h : acc.type = AccountType.CREDIT <;> simp [assetsSum, List.filter_cons, h]

/-- Unfolding of `liabSum` over a cons cell. -/
theorem liabSum_cons (rate : ℚ) (acc : Account) (tl : List Account) :
    liabSum rate (acc :: tl) =
      (if acc.type = AccountType.CREDIT then convBal rate acc else 0) + liabSum rate tl := by
  by_cases h : acc.type = AccountType.CREDIT <;> simp [liabSum, List.filter_cons, h]

/-- Unfolding of `limitSum` over a cons cell. -/
theorem limitSum_cons (rate : ℚ) (acc : Account) (tl : List Account) :
    limitSum rate (acc :: tl) = limitContrib rate acc + limitSum rate tl := by
  simp [limitSum]

/-- Closed form of the metrics accumulator fold: starting from an arbitrary
accumulator, the loop adds the non-CREDIT balance sum to the asset and
liquidity components, the CREDIT balance sum to the liability component, and
the limit-contribution sum to the credit-limit component. -/
theorem metricsAcc_foldl (rate : ℚ) (l : List Account) :
    ∀ a b c d : ℚ, l.foldl (metricsAcc rate) (a, b, c, d) =
      (a + assetsSum rate l, b + liabSum rate l, c + assetsSum rate l, d + limitSum rate l) := by
  induction l with
  | nil => intro a b c d; simp [assetsSum, liabSum, limitSum]
  | cons acc tl ih =>
      intro a b c d
      rw [List.foldl_cons]
      by_cases h : acc.type = AccountType.CREDIT
      · rcases hcl : acc.creditLimit with _ | cl
        · have hstep : metricsAcc rate (a, b, c, d) acc = (a, b + convBal rate acc, c, d) := by
            simp [metricsAcc, h, hcl, convBal]
          rw [hstep, ih, assetsSum_cons, liabSum_cons, limitSum_cons]
          simp [h, limitContrib, hcl, add_assoc]
        · by_cases hz : cl = 0
          · have hstep : metricsAcc rate (a, b, c, d) acc = (a, b + convBal rate acc, c, d) := by
              simp [metricsAcc, h, hcl, hz, convBal]
            rw [hstep, ih, assetsSum_cons, liabSum_cons, limitSum_cons]
            simp [h, limitContrib, hcl, hz, add_assoc]
          · have hstep : metricsAcc rate (a, b, c, d) acc =
                (a, b + convBal rate acc, c,
                 d + convertValue rate cl acc.currency Currency.COP) := by
              simp [metricsAcc, h, hcl, hz, convBal]
            rw [hstep, ih, assetsSum_cons, liabSum_cons, limitSum_cons]
            simp [h, limitContrib, hcl, hz, add_assoc]
      · have hstep : metricsAcc rate (a, b, c, d) acc =
            (a + convBal rate acc, b, c + convBal rate acc, d) := by
          simp [metricsAcc, h, convBal]
        rw [hstep, ih, assetsSum_cons, liabSum_cons, limitSum_cons]
        simp [h, limitContrib, add_assoc]

/-- The metrics record in closed form. -/
theorem metrics_eq (rate : ℚ) (accounts : List Account) :
    metrics rate accounts =
      { totalAssets := assetsSum rate accounts
        totalLiabilities := liabSum rate accounts
        netWorth := assetsSum rate accounts - liabSum rate accounts
        liquidity := assetsSum rate accounts
        buyingPower := assetsSum rate accounts + (limitSum rate accounts - liabSum rate accounts)
        creditLimitTotal := limitSum rate accounts } := by
  have h := metricsAcc_foldl rate accounts 0 0 0 0
  simp only [zero_add] at h
  simp only [metrics, h]

/-- Converted amount of a transaction as used by the reconstruction and the
performance analytics (src/unnamed/part_001:541 and 1084):
`tx.exchangeRateUsed ? tx.amount * tx.exchangeRateUsed : tx.amount`.
The truthiness test on the recorded rate is false exactly at 0. -/
def convAmt (t : Transaction) : ℚ :=
  if t.exchangeRateUsed = 0 then t.amount else t.amount * t.exchangeRateUsed

/-- The type-bucketing test of the reconstruction loop
(src/unnamed/part_001:540,543): look the owning account up by id and ask
whether it is CREDIT; a missing account compares `undefined === CREDIT`,
which is false. -/
def txIsCredit (accounts : List Account) (t : Transaction) : Bool :=
  match accounts.find? (fun a => a.id == t.accountId) with
  | some acc => acc.type == AccountType.CREDIT
  | none => false

/-- One transaction step of the backward walk (src/unnamed/part_001:539-547):
subtract the converted amount from the running liabilities if the owning
account is CREDIT, otherwise from the running liquidity. The state is the
pair (curLiq, curLiabilities). -/
def applyTx (accounts : List Account) (st : ℚ × ℚ) (t : Transaction) : ℚ × ℚ :=
  if txIsCredit accounts t then (st.1, st.2 - convAmt t)
  else (st.1 - convAmt t, st.2)

/-- The descending-by-date sort of src/unnamed/part_001:527
(`sort((a, b) => new Date(b.date).getTime() - new Date(a.date).getTime())`). -/
def sortTxsDesc (txs : List Transaction) : List Transaction :=
  txs.mergeSort (fun a b => decide (b.date ≤ a.date))

/-- One emitted point of the historical series (src/unnamed/part_001:551-556). -/
structure ChartPoint where
  date : ℤ
  netWorth : ℚ
  liquidity : ℚ
  buyingPower : ℚ
deriving DecidableEq

/-- The day loop of `Dashboard.chartData` (src/unnamed/part_001:533-557).
`dayStarts` is the sequence of day-boundary timestamps the loop computes as
`new Date(now.getFullYear(), now.getMonth(), now.getDate() - i)` for
i = 0, 1, …, diffDays - 1 — i.e. the start of today first, then one day
earlier per element; the calendar arithmetic itself is kept abstract as this
explicit list. For each boundary the `while` loop consumes the longest prefix
of the remaining (date-descending) transaction list whose dates are ≥ the
boundary, applies each to the running state, and then `unshift`s the day's
point, so points generated later (earlier days) precede earlier-generated
ones in the result. -/
def chartLoop (accounts : List Account) (limit : ℚ) :
    ℚ → ℚ → List Transaction → List ℤ → List ChartPoint
  | _, _, _, [] => []
  | liq, liab, txs, d :: rest =>
      let consumed := txs.takeWhile (fun t => decide (d ≤ t.date))
      let remaining := txs.dropWhile (fun t => decide (d ≤ t.date))
      let st := consumed.foldl (applyTx accounts) (liq, liab)
      chartLoop accounts limit st.1 st.2 remaining rest ++
        [{ date := d, netWorth := st.1 - st.2, liquidity := st.1,
           buyingPower := st.1 + (limit - st.2) }]

/-- Embeds `Dashboard.chartData` (src/unnamed/part_001:516-559): seed the
running state from the current `metrics` aggregates (curLiq from
`metrics.liquidity`, curLiabilities from `metrics.totalLiabilities`, the
constant curLimit from `metrics.creditLimitTotal`), sort the transactions by
date descending, and run the day loop over the day boundaries. -/
def chartData (rate : ℚ) (accounts : List Account) (txs : List Transaction)
    (dayStarts : List ℤ) : List ChartPoint :=
  let m := metrics rate accounts
  chartLoop accounts m.creditLimitTotal m.liquidity m.totalLiabilities
    (sortTxsDesc txs) dayStarts

/-- A list all of whose dates lie strictly before `d` has an empty
`takeWhile (d ≤ ·)` prefix. -/
theorem takeWhile_ge_eq_nil_of_all_lt (d : ℤ) (l : List Transaction)
    (h : ∀ t ∈ l, t.date < d) :
    l.takeWhile (fun t => decide (d ≤ t.date)) = [] := by
  cases l with
  | nil => rfl
  | cons t ts =>
      rw [List.takeWhile_cons]
      have ht : t.date < d := h t (List.mem_cons_self t ts)
      simp [not_le.mpr ht]

/-- The sorted transaction stream has the same members as the input. -/
theorem mem_sortTxsDesc (txs : List Transaction) (t : Transaction) :
    t ∈ sortTxsDesc txs ↔ t ∈ txs :=
  (List.mergeSort_perm txs (fun a b => decide (b.date ≤ a.date))).mem_iff

/-- Scope filter of `PerformancePage.stats` (src/unnamed/part_001:1049-1051):
all accounts, the accounts of one group, or the accounts sharing one
category tag. `general` also covers the `filterId === 'ALL'` case, in which
the code applies no filter. -/
inductive Scope where
  | general : Scope
  | group : String → Scope
  | category : String → Scope

/-- The in-scope account list (src/unnamed/part_001:1049-1051). -/
def inScopeAccs (accounts : List Account) : Scope → List Account
  | Scope.general => accounts
  | Scope.group fid => accounts.filter (fun a => a.groupId == some fid)
  | Scope.category fid => accounts.filter (fun a => a.category == some fid)

/-- The transactions of in-scope accounts (src/unnamed/part_001:1053-1054):
`data.transactions.filter(t => accIds.includes(t.accountId))`. -/
def rangeTxs (accounts : List Account) (txs : List Transaction) (scope : Scope) :
    List Transaction :=
  txs.filter (fun t => ((inScopeAccs accounts scope).map Account.id).contains t.accountId)

/-- The windowed, ascending-sorted transactions (src/unnamed/part_001:1067):
keep the in-scope transactions dated on or after the window start and sort
them by date ascending. -/
def timelyTxs (accounts : List Account) (txs : List Transaction) (scope : Scope)
    (startDate : ℤ) : List Transaction :=
  ((rangeTxs accounts txs scope).filter (fun t => decide (startDate ≤ t.date))).mergeSort
    (fun a b => decide (a.date ≤ b.date))

/-- The scoped current valuation (src/unnamed/part_001:1070-1073): signed sum
of converted balances over the in-scope accounts, CREDIT balances negated. -/
def currentValOf (rate : ℚ) (accounts : List Account) (scope : Scope) : ℚ :=
  (inScopeAccs accounts scope).foldl
    (fun sum acc =>
      let v := convertValue rate acc.balance acc.currency Currency.COP
      if acc.type = AccountType.CREDIT then sum - v else sum + v) 0

/-- The reverse-replayed window-start valuation (src/unnamed/part_001:1082-1085):
start from the current value and subtract each windowed transaction's
converted amount. -/
def startValOf (rate : ℚ) (accounts : List Account) (txs : List Transaction)
    (scope : Scope) (startDate : ℤ) : ℚ :=
  (timelyTxs accounts txs scope startDate).foldl (fun s t => s - convAmt t)
    (currentValOf rate accounts scope)

/-- The exactly-representable fields of the object `PerformancePage.stats`
returns. The `ea` and `projections` fields pass a rational exponent to
`Math.pow` and are transcendental-valued; the exponent the `ea` computation
uses is embedded separately as `eaExponent` below. -/
structure PerfStats where
  normal : ℚ
  currentVal : ℚ
deriving DecidableEq

/-- Embeds the branch structure and the `normal`/`currentVal` outputs of
`PerformancePage.stats` (src/unnamed/part_001:1047-1106): the early return
with all-zero stats when both the in-scope transaction and account lists are
empty (line 1056), the early returns that still report `currentVal` when no
transaction falls in the window (lines 1075-1078), and otherwise
`normal = (endVal / startVal - 1) * 100`, defined as 0 when `startVal` is 0
(line 1088, returned scaled by 100 at line 1102). -/
def stats (rate : ℚ) (accounts : List Account) (txs : List Transaction)
    (scope : Scope) (startDate : ℤ) : PerfStats :=
  let accs := inScopeAccs accounts scope
  let rTxs := rangeTxs accounts txs scope
  if rTxs.isEmpty ∧ accs.isEmpty then { normal := 0, currentVal := 0 }
  else
    let tTxs := timelyTxs accounts txs scope startDate
    let currentVal := currentValOf rate accounts scope
    if tTxs.isEmpty then { normal := 0, currentVal := currentVal }
    else
      let startVal := startValOf rate accounts txs scope startDate
      let normal := if startVal ≠ 0 then currentVal / startVal - 1 else 0
      { normal := normal * 100, currentVal := currentVal }

/-- The window length in years (src/unnamed/part_001:1091):
`diffMs / (1000 * 60 * 60 * 24 * 365)`. -/
def yearsOf (diffMs : ℚ) : ℚ := diffMs / (1000 * 60 * 60 * 24 * 365)

/-- JS `x || 1` for a (non-NaN) number: 1 exactly when x is 0. -/
def jsOrOne (x : ℚ) : ℚ := if x = 0 then 1 else x

/-- The exponent `1 / (years || 1)` that the annualized-return computation
passes to `Math.pow` (src/unnamed/part_001:1092), as a function of the window
length in milliseconds. -/
def eaExponent (diffMs : ℚ) : ℚ := 1 / jsOrOne (yearsOf diffMs)

/-- Modelled from the spec sentence of claim C3: the exponent
`1 / years` with `years` "guarded to a minimum of 1", i.e. `1 / max years 1`.
This is the spec's reading of the guard, to be compared with the source's
`eaExponent`. -/
def eaExponentSpecMin (diffMs : ℚ) : ℚ := 1 / max (yearsOf diffMs) 1

/-- Folding subtraction of `f` over a list starting from `c` is `c` minus the
sum of the images. -/
theorem foldl_sub_eq (f : Transaction → ℚ) (l : List Transaction) :
    ∀ c : ℚ, l.foldl (fun s t => s - f t) c = c - (l.map f).sum := by
  induction l with
  | nil => intro c; simp
  | cons t ts ih =>
      intro c
      rw [List.foldl_cons, ih, List.map_cons, List.sum_cons]
      ring

/-- The application data held in state (types.ts `AppData`), with the
settings object flattened to its single `usdToCopRate` field. -/
structure AppState where
  accounts : List Account
  groups : List Group
  transactions : List Transaction
  usdToCopRate : ℚ
deriving DecidableEq

/-- Embeds the state update of `deleteGroup` (src/unnamed/part_001:1479-1486):
remove the group from the group list and detach its member accounts by
mapping their `groupId` to null, leaving every other account untouched. -/
def deleteGroup (st : AppState) (gid : String) : AppState :=
  { st with
    groups := st.groups.filter (fun g => !(g.id == gid))
    accounts := st.accounts.map (fun a =>
      if a.groupId = some gid then { a with groupId := none } else a) }

/-- Epoch milliseconds of `PROJECT_START_DATE = '2025-12-31T00:00:00.000Z'`
(src/unnamed/part_002:14): 20453 days of 86400000 ms since 1970-01-01. -/
def PROJECT_START_DATE : ℤ := 1767139200000

/-- Embeds the transaction filter of `App.refreshData`
(src/unnamed/part_001:1375-1382): of the fetched transactions, only those
dated on or after the project start date enter the app state. -/
def refreshTransactions (fetched : List Transaction) : List Transaction :=
  fetched.filter (fun t => decide (PROJECT_START_DATE ≤ t.date))

/-- A plain COP debit account used by concrete scenarios. -/
def debitAccA : Account :=
  { id := "a", userId := "u", groupId := none, name := "Cash", description := none,
    type := AccountType.DEBIT, currency := Currency.COP, balance := 0,
    creditLimit := none, initialBalance := 0, createdAt := 0, category := none,
    sortOrder := 0 }

/-- The CREDIT account of the spec's scenario: balance 200000 COP, credit
limit 1000000 COP. -/
def creditScenarioAcc : Account :=
  { id := "cc", userId := "u", groupId := none, name := "Card", description := none,
    type := AccountType.CREDIT, currency := Currency.COP, balance := 200000,
    creditLimit := some 1000000, initialBalance := 0, createdAt := 0,
    category := none, sortOrder := 0 }

/-- A transaction on `debitAccA` dated 15, i.e. after the day boundary 10
used as "start of today" in the concrete reconstruction scenarios. -/
def todayTx : Transaction :=
  { id := "t1", userId := "u", accountId := "a", amount := 100, newBalance := 100,
    date := 15, exchangeRateUsed := 1 }

/-- A transaction on `debitAccA` dated 5, i.e. strictly before the day
boundary 10 used as "start of today" in the concrete scenarios. -/
def pastTx : Transaction :=
  { id := "t0", userId := "u", accountId := "a", amount := 100, newBalance := 100,
    date := 5, exchangeRateUsed := 1 }

/-- A transaction referencing an account id ("ghost") that exists in no
account list, dated 15. -/
def orphanTx : Transaction :=
  { id := "o1", userId := "u", accountId := "ghost", amount := 100, newBalance := 0,
    date := 15, exchangeRateUsed := 1 }

/-- C5: for every non-empty account set and exchange rate, the computed
valuation satisfies netWorth = totalAssets - totalLiabilities, where
totalAssets is the sum of converted balances of the non-CREDIT accounts
(which equally make up liquidity and never enter the liabilities sum) and
totalLiabilities is the sum of converted balances of the CREDIT accounts. -/
theorem metrics_netWorth_decomposition (rate : ℚ) (accounts : List Account)
    (h : accounts ≠ []) :
    (metrics rate accounts).netWorth =
      (metrics rate accounts).totalAssets - (metrics rate accounts).totalLiabilities ∧
    (metrics rate accounts).totalAssets = assetsSum rate accounts ∧
    (metrics rate accounts).totalLiabilities = liabSum rate accounts ∧
    (metrics rate accounts).liquidity = assetsSum rate accounts := by
  rw [metrics_eq]
  exact ⟨rfl, rfl, rfl, rfl⟩

/-- Witness for C5 at the one-debit-account scenario. -/
theorem metrics_netWorth_decomposition_witness :
    [debitAccA] ≠ [] ∧
    ((metrics 4000 [debitAccA]).netWorth =
        (metrics 4000 [debitAccA]).totalAssets - (metrics 4000 [debitAccA]).totalLiabilities ∧
      (metrics 4000 [debitAccA]).totalAssets = assetsSum 4000 [debitAccA] ∧
      (metrics 4000 [debitAccA]).totalLiabilities = liabSum 4000 [debitAccA] ∧
      (metrics 4000 [debitAccA]).liquidity = assetsSum 4000 [debitAccA]) :=
  ⟨by simp, metrics_netWorth_decomposition 4000 [debitAccA] (by simp)⟩

/-- C6: for every account set and rate, buyingPower equals
liquidity + (creditLimitTotal - totalLiabilities); and on the concrete
scenario of one CREDIT account with balance 200000 COP and limit 1000000 COP
the valuation yields netWorth = -200000, liquidity = 0 and
buyingPower = 800000. -/
theorem metrics_buyingPower_and_credit_scenario :
    (∀ (rate : ℚ) (accounts : List Account),
        (metrics rate accounts).buyingPower =
          (metrics rate accounts).liquidity +
            ((metrics rate accounts).creditLimitTotal -
              (metrics rate accounts).totalLiabilities)) ∧
    (metrics 4000 [creditScenarioAcc]).netWorth = -200000 ∧
    (metrics 4000 [creditScenarioAcc]).liquidity = 0 ∧
    (metrics 4000 [creditScenarioAcc]).buyingPower = 800000 := by
  refine ⟨fun rate accounts => by rw [metrics_eq], ?_, ?_, ?_⟩ <;>
    norm_num [metrics_eq, assetsSum, liabSum, limitSum, limitContrib, convBal,
      convertValue, creditScenarioAcc]

/-- C7: for every scope and window start, the reverse-replayed startVal equals
the scoped current valuation minus the sum of the converted amounts of the
in-scope transactions dated on or after the window start (the code imposes no
upper bound on the window, `now` being the present). -/
theorem startVal_eq_currentVal_sub_window_sum (rate : ℚ) (accounts : List Account)
    (txs : List Transaction) (scope : Scope) (startDate : ℤ) :
    startValOf rate accounts txs scope startDate =
      currentValOf rate accounts scope -
        (((rangeTxs accounts txs scope).filter
            (fun t => decide (startDate ≤ t.date))).map convAmt).sum := by
  unfold startValOf timelyTxs
  rw [foldl_sub_eq]
  congr 1
  exact ((List.mergeSort_perm _ _).map convAmt).sum_eq

/-- C8: whenever the reverse-replayed startVal is 0 — including with a nonzero
current valuation — the returned normalReturn is exactly 0 (no division is
attempted) and currentVal is still reported from present balances. -/
theorem stats_normal_zero_of_startVal_zero (rate : ℚ) (accounts : List Account)
    (txs : List Transaction) (scope : Scope) (startDate : ℤ)
    (h : startValOf rate accounts txs scope startDate = 0) :
    (stats rate accounts txs scope startDate).normal = 0 ∧
    (stats rate accounts txs scope startDate).currentVal =
      currentValOf rate accounts scope := by
  by_cases h1 : rangeTxs accounts txs scope = [] ∧ inScopeAccs accounts scope = []
  · simp [stats, List.isEmpty_iff, h1, currentValOf, h1.2]
  · by_cases h2 : timelyTxs accounts txs scope startDate = []
    · simp [stats, List.isEmpty_iff, h1, h2]
    · simp [stats, List.isEmpty_iff, h1, h2, h]

/-- Witness for C8 on empty inputs. -/
theorem stats_normal_zero_of_startVal_zero_witness :
    startValOf 4000 [] [] Scope.general 0 = 0 ∧
    ((stats 4000 [] [] Scope.general 0).normal = 0 ∧
      (stats 4000 [] [] Scope.general 0).currentVal = currentValOf 4000 [] Scope.general) := by
  have hstart : startValOf 4000 [] [] Scope.general 0 = 0 := by
    simp [startValOf, timelyTxs, rangeTxs, currentValOf, inScopeAccs]
  exact ⟨hstart, stats_normal_zero_of_startVal_zero 4000 [] [] Scope.general 0 hstart⟩

/-- C10: on refresh, a fetched transaction enters the app state exactly when
its timestamp is on or after the project start date 2025-12-31T00:00:00Z, so
transactions dated strictly before it are filtered out of every subsequent
engine computation over the refreshed state. -/
theorem refreshTransactions_mem_iff (fetched : List Transaction) (t : Transaction) :
    t ∈ refreshTransactions fetched ↔ t ∈ fetched ∧ PROJECT_START_DATE ≤ t.date := by
  simp [refreshTransactions, List.mem_filter]

/-- C4 counterexample: with a zero exchange-rate setting, converting the
value 1 from COP to USD divides by zero and yields Infinity under JS double
semantics — a non-finite value, not the zero result the claim states. -/
theorem convert_zero_rate_counterexample :
    convertValueJs 0 1 Currency.COP Currency.USD = JsNum.posInf ∧
    JsNum.posInf ≠ JsNum.num 0 ∧
    JsNum.isFinite JsNum.posInf = false := by
  refine ⟨?_, by simp, rfl⟩
  simp [convertValueJs, jsDiv]

/-- C4 amended: for every value v, when the exchange-rate setting is zero,
COP→USD conversion yields a non-finite value (Infinity for positive v,
-Infinity for negative v, NaN for v = 0) and never the value zero; no
exception is propagated — the operation is total — but the result does not
degrade to zero. -/
theorem convert_zero_rate_nonfinite (v : ℚ) :
    JsNum.isFinite (convertValueJs 0 v Currency.COP Currency.USD) = false ∧
    convertValueJs 0 v Currency.COP Currency.USD ≠ JsNum.num 0 := by
  by_cases hv : v = 0
  · simp [convertValueJs, jsDiv, hv, JsNum.isFinite]
  · by_cases h2 : 0 < v
    · simp [convertValueJs, jsDiv, hv, h2, JsNum.isFinite]
    · simp [convertValueJs, jsDiv, hv, h2, JsNum.isFinite]

/-- C3 counterexample: for the one-month window (30 days, diffMs =
2592000000), the exponent the code passes to `Math.pow` is
1 / years = 73/6 ≈ 12.17, not the 1/1 the claim states; the spec-modelled
minimum-of-1 guard would give exactly 1. -/
theorem eaExponent_short_window_counterexample :
    eaExponent 2592000000 = 73 / 6 ∧
    eaExponentSpecMin 2592000000 = 1 ∧
    eaExponent 2592000000 ≠ eaExponentSpecMin 2592000000 := by
  norm_num [eaExponent, eaExponentSpecMin, yearsOf, jsOrOne, max_def]

/-- C3 amended: the annualized-return exponent is 1 / years with years the
window length in years, where `years || 1` replaces years by 1 only when it
is exactly zero — not a minimum-of-1 guard; consequently every window of
positive length shorter than one year uses an exponent strictly greater
than 1 (1/years), not 1/1. -/
theorem eaExponent_guard_only_at_zero (diffMs : ℚ) (h : diffMs ≠ 0) :
    eaExponent diffMs = 1 / yearsOf diffMs ∧
    (0 < diffMs → diffMs < 31536000000 → 1 < eaExponent diffMs) ∧
    eaExponent 0 = 1 := by
  have hy : yearsOf diffMs ≠ 0 := by
    simp only [yearsOf, div_ne_zero_iff]
    norm_num [h]
  refine ⟨by simp [eaExponent, jsOrOne, hy], ?_, by simp [eaExponent, jsOrOne, yearsOf]⟩
  intro hpos hshort
  have hypos : 0 < yearsOf diffMs := by
    simp only [yearsOf]
    positivity
  have hlt : yearsOf diffMs < 1 := by
    rw [yearsOf, div_lt_one (by norm_num)]
    linarith
  have : eaExponent diffMs = 1 / yearsOf diffMs := by simp [eaExponent, jsOrOne, hy]
  rw [this]
  exact one_lt_one_div hypos hlt

/-- Witness for C3 amended at the 30-day window. -/
theorem eaExponent_guard_only_at_zero_witness :
    (2592000000 : ℚ) ≠ 0 ∧
    (eaExponent 2592000000 = 1 / yearsOf 2592000000 ∧
      (0 < (2592000000 : ℚ) → (2592000000 : ℚ) < 31536000000 →
        1 < eaExponent 2592000000) ∧
      eaExponent 0 = 1) :=
  ⟨by norm_num, eaExponent_guard_only_at_zero 2592000000 (by norm_num)⟩

/-- C1 counterexample: with one DEBIT account of balance 0 and one
transaction of converted amount 100 dated on the current day (date 15, on or
after the start-of-today boundary 10), the last reconstructed point carries
netWorth -100 while the current valuation's netWorth is 0: the last point
shows the state at the beginning of today, with today's transactions already
subtracted. -/
theorem chartData_last_point_counterexample :
    ((chartData 4000 [debitAccA] [todayTx] [10]).getLast?).map ChartPoint.netWorth =
      some (-100) ∧
    (metrics 4000 [debitAccA]).netWorth = 0 ∧
    ((chartData 4000 [debitAccA] [todayTx] [10]).getLast?).map ChartPoint.netWorth ≠
      some ((metrics 4000 [debitAccA]).netWorth) := by
  have hm : (metrics 4000 [debitAccA]).netWorth = 0 := by
    simp [metrics_eq, assetsSum, liabSum, convBal, convertValue, debitAccA]
  have hchart : chartData 4000 [debitAccA] [todayTx] [10] =
      [{ date := 10, netWorth := -100, liquidity := -100, buyingPower := -100 }] := by
    simp [chartData, chartLoop, metrics_eq, assetsSum, liabSum, limitSum, limitContrib,
      convBal, convertValue, sortTxsDesc, List.mergeSort_singleton, applyTx, txIsCredit,
      convAmt, debitAccA, todayTx]
  refine ⟨by rw [hchart]; rfl, hm, ?_⟩
  rw [hchart, hm]
  simp

/-- C1 amended: the last point of the reconstruction equals the current
netWorth provided no transaction is dated on or after the start of the
current day (the first day boundary); a same-day transaction is subtracted
before the last point is emitted and breaks the equality by its converted
amount. -/
theorem chartData_last_point_netWorth_eq_current (rate : ℚ) (accounts : List Account)
    (txs : List Transaction) (d0 : ℤ) (rest : List ℤ)
    (h : ∀ t ∈ txs, t.date < d0) :
    ((chartData rate accounts txs (d0 :: rest)).getLast?).map ChartPoint.netWorth =
      some ((metrics rate accounts).netWorth) := by
  have hall : ∀ t ∈ sortTxsDesc txs, t.date < d0 := fun t ht =>
    h t ((mem_sortTxsDesc txs t).mp ht)
  have htw : (sortTxsDesc txs).takeWhile (fun t => decide (d0 ≤ t.date)) = [] :=
    takeWhile_ge_eq_nil_of_all_lt d0 _ hall
  simp only [chartData, chartLoop, htw, List.foldl_nil, List.getLast?_concat]
  rw [metrics_eq]
  simp

/-- Witness for C1 amended: one transaction dated 5, strictly before the
boundary 10. -/
theorem chartData_last_point_netWorth_eq_current_witness :
    (∀ t ∈ [pastTx], t.date < 10) ∧
    ((chartData 4000 [debitAccA] [pastTx] ((10 : ℤ) :: [])).getLast?).map
        ChartPoint.netWorth = some ((metrics 4000 [debitAccA]).netWorth) :=
  ⟨by decide, chartData_last_point_netWorth_eq_current 4000 [debitAccA] [pastTx] 10 []
    (by decide)⟩

/-- C2 counterexample: a transaction whose accountId ("ghost") matches no
account is NOT skipped by the reconstruction: the `acc?.type === CREDIT` test
is false for a missing account, so the else branch subtracts the converted
amount from the running liquidity. Concretely, applying the orphan
transaction to state (0, 0) gives (-100, 0), and reconstructing over two day
boundaries emits a point whose liquidity is -100, whereas with no
transactions every emitted point carries liquidity 0. -/
theorem orphan_transaction_counterexample :
    applyTx [] ((0 : ℚ), (0 : ℚ)) orphanTx = (-100, 0) ∧
    applyTx [] ((0 : ℚ), (0 : ℚ)) orphanTx ≠ ((0 : ℚ), (0 : ℚ)) ∧
    (chartData 4000 [] [orphanTx] [20, 10]).map ChartPoint.liquidity = [-100, 0] ∧
    (chartData 4000 [] ([] : List Transaction) [20, 10]).map ChartPoint.liquidity =
      [0, 0] := by
  have happ : applyTx [] ((0 : ℚ), (0 : ℚ)) orphanTx = (-100, 0) := by
    simp [applyTx, txIsCredit, convAmt, orphanTx]
  refine ⟨happ, by rw [happ]; simp, ?_, ?_⟩
  · simp [chartData, chartLoop, metrics, metricsAcc, sortTxsDesc, List.mergeSort_singleton,
      applyTx, txIsCredit, convAmt, orphanTx]
  · simp [chartData, chartLoop, metrics, metricsAcc, sortTxsDesc, applyTx, txIsCredit,
      convAmt]

/-- C2 amended: a transaction whose accountId matches no account in the
account set is bucketed as non-CREDIT: the backward step subtracts its
converted amount from the running liquidity total (the liabilities total is
untouched), so it does affect the emitted points, exactly as a debit-account
transaction would. -/
theorem applyTx_orphan_buckets_as_liquidity (accounts : List Account)
    (st : ℚ × ℚ) (t : Transaction)
    (h : accounts.find? (fun a => a.id == t.accountId) = none) :
    applyTx accounts st t = (st.1 - convAmt t, st.2) := by
  simp [applyTx, txIsCredit, h]

/-- Witness for C2 amended: the empty account set and the orphan
transaction. -/
theorem applyTx_orphan_buckets_as_liquidity_witness :
    List.find? (fun a => a.id == orphanTx.accountId) ([] : List Account) = none ∧
    applyTx [] ((0 : ℚ), (0 : ℚ)) orphanTx = ((0 : ℚ) - convAmt orphanTx, (0 : ℚ)) :=
  ⟨rfl, applyTx_orphan_buckets_as_liquidity [] ((0 : ℚ), (0 : ℚ)) orphanTx rfl⟩

/-- Field-by-field behaviour of the per-account detach step of `deleteGroup`:
every field is kept except a groupId matching the deleted id, which becomes
null. -/
theorem detachAccount_fields (gid : String) (a : Account) :
    (if a.groupId = some gid then { a with groupId := none } else a).id = a.id ∧
    (if a.groupId = some gid then { a with groupId := none } else a).userId = a.userId ∧
    (if a.groupId = some gid then { a with groupId := none } else a).name = a.name ∧
    (if a.groupId = some gid then { a with groupId := none } else a).description =
      a.description ∧
    (if a.groupId = some gid then { a with groupId := none } else a).type = a.type ∧
    (if a.groupId = some gid then { a with groupId := none } else a).currency = a.currency ∧
    (if a.groupId = some gid then { a with groupId := none } else a).balance = a.balance ∧
    (if a.groupId = some gid then { a with groupId := none } else a).creditLimit =
      a.creditLimit ∧
    (if a.groupId = some gid then { a with groupId := none } else a).initialBalance =
      a.initialBalance ∧
    (if a.groupId = some gid then { a with groupId := none } else a).createdAt =
      a.createdAt ∧
    (if a.groupId = some gid then { a with groupId := none } else a).category =
      a.category ∧
    (if a.groupId = some gid then { a with groupId := none } else a).sortOrder =
      a.sortOrder ∧
    (if a.groupId = some gid then { a with groupId := none } else a).groupId =
      (if a.groupId = some gid then none else a.groupId) := by
  by_cases hg : a.groupId = some gid <;> simp [hg]

/-- C9: deleting a group keeps every account, in place: the account list
keeps its length, and the account at each position keeps every field — in
particular its balance — except that a groupId equal to the deleted group's
id becomes null while any other groupId (including membership in another
group) is kept. -/
theorem deleteGroup_preserves_accounts (st : AppState) (gid : String) :
    (deleteGroup st gid).accounts.length = st.accounts.length ∧
    ∀ i : ℕ, ∀ h1 : i < (deleteGroup st gid).accounts.length,
      ∀ h2 : i < st.accounts.length,
      ((deleteGroup st gid).accounts.get ⟨i, h1⟩).id = (st.accounts.get ⟨i, h2⟩).id ∧
      ((deleteGroup st gid).accounts.get ⟨i, h1⟩).userId =
        (st.accounts.get ⟨i, h2⟩).userId ∧
      ((deleteGroup st gid).accounts.get ⟨i, h1⟩).name = (st.accounts.get ⟨i, h2⟩).name ∧
      ((deleteGroup st gid).accounts.get ⟨i, h1⟩).description =
        (st.accounts.get ⟨i, h2⟩).description ∧
      ((deleteGroup st gid).accounts.get ⟨i, h1⟩).type = (st.accounts.get ⟨i, h2⟩).type ∧
      ((deleteGroup st gid).accounts.get ⟨i, h1⟩).currency =
        (st.accounts.get ⟨i, h2⟩).currency ∧
      ((deleteGroup st gid).accounts.get ⟨i, h1⟩).balance =
        (st.accounts.get ⟨i, h2⟩).balance ∧
      ((deleteGroup st gid).accounts.get ⟨i, h1⟩).creditLimit =
        (st.accounts.get ⟨i, h2⟩).creditLimit ∧
      ((deleteGroup st gid).accounts.get ⟨i, h1⟩).initialBalance =
        (st.accounts.get ⟨i, h2⟩).initialBalance ∧
      ((deleteGroup st gid).accounts.get ⟨i, h1⟩).createdAt =
        (st.accounts.get ⟨i, h2⟩).createdAt ∧
      ((deleteGroup st gid).accounts.get ⟨i, h1⟩).category =
        (st.accounts.get ⟨i, h2⟩).category ∧
      ((deleteGroup st gid).accounts.get ⟨i, h1⟩).sortOrder =
        (st.accounts.get ⟨i, h2⟩).sortOrder ∧
      ((deleteGroup st gid).accounts.get ⟨i, h1⟩).groupId =
        (if (st.accounts.get ⟨i, h2⟩).groupId = some gid then none
         else (st.accounts.get ⟨i, h2⟩).groupId) := by
  refine ⟨by simp [deleteGroup], ?_⟩
  intro i h1 h2
  have hget : (deleteGroup st gid).accounts.get ⟨i, h1⟩ =
      (if (st.accounts.get ⟨i, h2⟩).groupId = some gid
       then { st.accounts.get ⟨i, h2⟩ with groupId := none }
       else st.accounts.get ⟨i, h2⟩) := by
    simp [deleteGroup, List.get_eq_getElem, List.getElem_map]
  rw [hget]
  exact detachAccount_fields gid (st.accounts.get ⟨i, h2⟩)

/-- The concrete state of the C9 witness: one account in group "g", one
group "g". -/
def stW : AppState :=
  { accounts := [{ debitAccA with groupId := some "g" }]
    groups := [{ id := "g", userId := "u", name := "G", sortOrder := 0 }]
    transactions := []
    usdToCopRate := 4000 }

/-- Witness for C9 at `stW`, position 0. -/
theorem deleteGroup_preserves_accounts_witness :
    ((deleteGroup stW "g").accounts.get ⟨0, by simp [deleteGroup, stW]⟩).id =
      (stW.accounts.get ⟨0, by simp [stW]⟩).id ∧
    ((deleteGroup stW "g").accounts.get ⟨0, by simp [deleteGroup, stW]⟩).userId =
      (stW.accounts.get ⟨0, by simp [stW]⟩).userId ∧
    ((deleteGroup stW "g").accounts.get ⟨0, by simp [deleteGroup, stW]⟩).name =
      (stW.accounts.get ⟨0, by simp [stW]⟩).name ∧
    ((deleteGroup stW "g").accounts.get ⟨0, by simp [deleteGroup, stW]⟩).description =
      (stW.accounts.get ⟨0, by simp [stW]⟩).description ∧
    ((deleteGroup stW "g").accounts.get ⟨0, by simp [deleteGroup, stW]⟩).type =
      (stW.accounts.get ⟨0, by simp [stW]⟩).type ∧
    ((deleteGroup stW "g").accounts.get ⟨0, by simp [deleteGroup, stW]⟩).currency =
      (stW.accounts.get ⟨0, by simp [stW]⟩).currency ∧
    ((deleteGroup stW "g").accounts.get ⟨0, by simp [deleteGroup, stW]⟩).balance =
      (stW.accounts.get ⟨0, by simp [stW]⟩).balance ∧
    ((deleteGroup stW "g").accounts.get ⟨0, by simp [deleteGroup, stW]⟩).creditLimit =
      (stW.accounts.get ⟨0, by simp [stW]⟩).creditLimit ∧
    ((deleteGroup stW "g").accounts.get ⟨0, by simp [deleteGroup, stW]⟩).initialBalance =
      (stW.accounts.get ⟨0, by simp [stW]⟩).initialBalance ∧
    ((deleteGroup stW "g").accounts.get ⟨0, by simp [deleteGroup, stW]⟩).createdAt =
      (stW.accounts.get ⟨0, by simp [stW]⟩).createdAt ∧
    ((deleteGroup stW "g").accounts.get ⟨0, by simp [deleteGroup, stW]⟩).category =
      (stW.accounts.get ⟨0, by simp [stW]⟩).category ∧
    ((deleteGroup stW "g").accounts.get ⟨0, by simp [deleteGroup, stW]⟩).sortOrder =
      (stW.accounts.get ⟨0, by simp [stW]⟩).sortOrder ∧
    ((deleteGroup stW "g").accounts.get ⟨0, by simp [deleteGroup, stW]⟩).groupId =
      (if (stW.accounts.get ⟨0, by simp [stW]⟩).groupId = some "g" then none
       else (stW.accounts.get ⟨0, by simp [stW]⟩).groupId) :=
  (deleteGroup_preserves_accounts stW "g").2 0 (by simp [deleteGroup, stW])
    (by simp [stW])

end Smartfi
